import Mathlib

/-!
Verification of the bsky-feed-filter repository: a shallow embedding of the
SQLite-backed feed store (`db.py`), the self-repost decision function
(`filter.py`), the event router (`server.py`) and the follow-list refresh
(`follows.py`), together with theorems settling the specification claims.

Conventions of the embedding:
* SQLite tables become Lean lists of structures; the AUTOINCREMENT id column
  of `feed_items` becomes an explicit `next_id` counter on the store.
* SQLite TEXT comparison (BINARY collation, memcmp over UTF-8) is Lean's
  `String` order (lexicographic over code points), which agrees with it.
* Python string operations are re-implemented over `List Char` so that every
  definition evaluates by kernel reduction on concrete inputs.
* `datetime.fromisoformat` is abstracted as a parameter
  `fromiso : String → Option Int` returning UTC epoch seconds (a naive
  result is understood as UTC, as the code forces with `replace(tzinfo=utc)`);
  the concrete `Z`-suffix normalisation done by `filter.py` before the call
  is embedded explicitly.  Times and durations are integer seconds.
* Python functions that can raise become `Except Unit`.
-/

namespace BskyFeed

/-! ### Python string primitives over `List Char` -/

/-- Python `s.startswith(pre)`. -/
def pyStartsWith (s pre : String) : Bool :=
  pre.data.isPrefixOf s.data

/-- Python `s.endswith(suf)`. -/
def pyEndsWith (s suf : String) : Bool :=
  suf.data.isSuffixOf s.data

/-- Python `s[n:]` (drop the first `n` characters). -/
def pyDrop (s : String) (n : Nat) : String :=
  ⟨s.data.drop n⟩

/-- Python `s[:-1]` (drop the last character). -/
def pyDropLast (s : String) : String :=
  ⟨s.data.dropLast⟩

/-- One step of Python `str.split(sep)` for a non-empty separator, with
explicit fuel so the recursion is structural; fuel at least `length + 1`
makes the result exact. -/
def splitOnFuel (sep : List Char) : Nat → List Char → List (List Char)
  | 0, s => [s]
  | _ + 1, [] => [[]]
  | fuel + 1, c :: rest =>
    if sep.isPrefixOf (c :: rest) then
      [] :: splitOnFuel sep fuel ((c :: rest).drop sep.length)
    else
      match splitOnFuel sep fuel rest with
      | [] => [[c]]
      | t :: ts => (c :: t) :: ts

/-- Python `s.split(sep)` for a non-empty separator. -/
def pySplit (s sep : String) : List String :=
  (splitOnFuel sep.data (s.data.length + 1) s.data).map (fun l => ⟨l⟩)

/-- Python `s.split(sep, 1)` (at most one split). -/
def pySplitOnce (s sep : String) : List String :=
  match pySplit s sep with
  | [] => []
  | [x] => [x]
  | x :: rest => [x, String.intercalate sep rest]

/-- Lexicographic comparison of character lists by code point; this is the
order SQLite's BINARY collation induces on TEXT values (memcmp over UTF-8
agrees with code-point order). -/
def charListLt : List Char → List Char → Bool
  | [], [] => false
  | [], _ :: _ => true
  | _ :: _, [] => false
  | a :: as, b :: bs =>
    a.toNat < b.toNat || (a.toNat == b.toNat && charListLt as bs)

/-- SQLite TEXT comparison `s < t`. -/
def strLt (s t : String) : Bool :=
  charListLt s.data t.data

/-- Python `s.strip()` restricted to ASCII whitespace. -/
def pyStrip (s : String) : String :=
  ⟨(s.data.dropWhile Char.isWhitespace).reverse.dropWhile Char.isWhitespace |>.reverse⟩

/-- Value of a decimal digit character. -/
def digitVal (c : Char) : Option Nat :=
  if c.isDigit then some (c.toNat - 48) else none

/-- Parse a non-empty string of decimal digits. -/
def parseDigits (cs : List Char) : Option Nat :=
  match cs with
  | [] => none
  | _ =>
    cs.foldl
      (fun acc c =>
        match acc, digitVal c with
        | some n, some d => some (n * 10 + d)
        | _, _ => none)
      (some 0)

/-- Python `int(s)` on a decimal literal: optional surrounding whitespace,
optional sign, then decimal digits; `none` models `ValueError`.
(Underscore digit separators accepted by CPython are not modelled.) -/
def pyInt (s : String) : Option Int :=
  match (pyStrip s).data with
  | '+' :: rest => (parseDigits rest).map (fun n => (n : Int))
  | '-' :: rest => (parseDigits rest).map (fun n => -(n : Int))
  | cs => (parseDigits cs).map (fun n => (n : Int))

/-! ### Data model (`db.py` schema) -/

/-- Row of the `posts` table. -/
structure Post where
  uri : String
  author_did : String
  created_at : String
  deriving Repr, DecidableEq

/-- Row of the `feed_items` table; `id` is the AUTOINCREMENT primary key. -/
structure FeedItem where
  id : Nat
  post_uri : String
  repost_uri : Option String
  reposter_did : Option String
  sort_time : String
  is_filtered : Bool
  deriving Repr, DecidableEq

/-- Row of the `follows` table. -/
structure Follow where
  did : String
  handle : Option String
  deriving Repr, DecidableEq

/-- The SQLite database state: the four tables plus the next AUTOINCREMENT
value for `feed_items.id`. -/
structure Store where
  posts : List Post
  feed_items : List FeedItem
  next_id : Nat
  follows : List Follow
  state : List (String × String)
  deriving Repr, DecidableEq

/-- The empty database, as created by `init_db`. -/
def Store.empty : Store :=
  ⟨[], [], 0, [], []⟩

/-! ### `db.py` operations -/

/-- `db.insert_post`: `INSERT OR IGNORE` keyed on the `uri` primary key. -/
def insert_post (uri author_did created_at : String) (s : Store) : Store :=
  if s.posts.any (fun p => p.uri == uri) then s
  else ⟨s.posts ++ [⟨uri, author_did, created_at⟩], s.feed_items, s.next_id,
        s.follows, s.state⟩

/-- `db.get_post`: `SELECT * FROM posts WHERE uri = ?` (primary key lookup). -/
def get_post (uri : String) (s : Store) : Option Post :=
  s.posts.find? (fun p => p.uri == uri)

/-- `db.delete_post`: `DELETE FROM posts WHERE uri = ?`. -/
def delete_post (uri : String) (s : Store) : Store :=
  ⟨s.posts.filter (fun p => ¬ p.uri = uri), s.feed_items, s.next_id,
   s.follows, s.state⟩

/-- `db.insert_feed_item`: plain `INSERT`; the row receives the next
AUTOINCREMENT id. -/
def insert_feed_item (post_uri : String) (sort_time : String)
    (repost_uri : Option String) (reposter_did : Option String)
    (is_filtered : Bool) (s : Store) : Store :=
  ⟨s.posts,
   s.feed_items ++ [⟨s.next_id, post_uri, repost_uri, reposter_did, sort_time, is_filtered⟩],
   s.next_id + 1, s.follows, s.state⟩

/-- `db.delete_feed_items_by_post`: `DELETE FROM feed_items WHERE post_uri = ?`. -/
def delete_feed_items_by_post (post_uri : String) (s : Store) : Store :=
  ⟨s.posts, s.feed_items.filter (fun f => ¬ f.post_uri = post_uri), s.next_id,
   s.follows, s.state⟩

/-- `db.delete_feed_items_by_repost`: `DELETE FROM feed_items WHERE
repost_uri = ?`.  SQL `NULL = ?` is not true, so rows whose `repost_uri`
is NULL are never deleted. -/
def delete_feed_items_by_repost (repost_uri : String) (s : Store) : Store :=
  ⟨s.posts, s.feed_items.filter (fun f => ¬ f.repost_uri = some repost_uri),
   s.next_id, s.follows, s.state⟩

/-- `db.replace_follows`: `DELETE FROM follows` then bulk insert, in one
transaction. -/
def replace_follows (follows : List Follow) (s : Store) : Store :=
  ⟨s.posts, s.feed_items, s.next_id, follows, s.state⟩

/-- `db.get_followed_dids`: `SELECT did FROM follows`. -/
def get_followed_dids (s : Store) : List String :=
  s.follows.map Follow.did

/-- `db.set_state`: `INSERT OR REPLACE INTO service_state`. -/
def set_state (key value : String) (s : Store) : Store :=
  ⟨s.posts, s.feed_items, s.next_id, s.follows,
   s.state.filter (fun kv => ¬ kv.1 = key) ++ [(key, value)]⟩

/-- `db.cleanup_old_data` with the cutoff string (the code computes it as
`strftime` of `now - DB_RETENTION_HOURS`) passed explicitly: deletes
feed items with `sort_time < cutoff` and posts with `created_at < cutoff`
(SQLite TEXT comparison) and returns the total number of rows deleted. -/
def cleanup_old_data (cutoff : String) (s : Store) : Store × Nat :=
  let feed_deleted := (s.feed_items.filter (fun f => strLt f.sort_time cutoff)).length
  let posts_deleted := (s.posts.filter (fun p => strLt p.created_at cutoff)).length
  (⟨s.posts.filter (fun p => ¬ strLt p.created_at cutoff),
    s.feed_items.filter (fun f => ¬ strLt f.sort_time cutoff),
    s.next_id, s.follows, s.state⟩,
   feed_deleted + posts_deleted)

/-! ### Pagination (`db.get_feed_skeleton`) -/

/-- The pagination key of a feed item: `(sort_time, id)`, with the id cast
to `Int` so it can be compared with a (possibly negative) cursor id. -/
def keyOf (f : FeedItem) : String × Int :=
  (f.sort_time, (f.id : Int))

/-- Strict lexicographic order on pagination keys, exactly the SQL
condition `sort_time < ? OR (sort_time = ? AND id < ?)`. -/
def keyLT (p q : String × Int) : Prop :=
  strLt p.1 q.1 = true ∨ (p.1 = q.1 ∧ p.2 < q.2)

instance : DecidableRel keyLT := fun p q => by
  unfold keyLT; infer_instance

/-- `ORDER BY sort_time DESC, id DESC` as a total preorder on rows:
`rowGE a b` says `a` comes no later than `b` in the output. -/
def rowGE (a b : FeedItem) : Prop :=
  keyLT (keyOf b) (keyOf a) ∨ keyOf b = keyOf a

instance : DecidableRel rowGE := fun a b => by
  unfold rowGE; infer_instance

/-- `a` strictly precedes `b` in `ORDER BY sort_time DESC, id DESC`. -/
def rowGT (a b : FeedItem) : Prop :=
  keyLT (keyOf b) (keyOf a)

instance : DecidableRel rowGT := fun a b => by
  unfold rowGT; infer_instance

/-- The result list of `ORDER BY sort_time DESC, id DESC`. -/
def sortDesc (l : List FeedItem) : List FeedItem :=
  List.insertionSort rowGE l

/-- The rows produced by the two SQL queries inside `get_feed_skeleton`:
with a cursor, `WHERE is_filtered = 0 AND (sort_time < ? OR (sort_time = ?
AND id < ?))`; without, `WHERE is_filtered = 0`; both `ORDER BY sort_time
DESC, id DESC LIMIT ?`. -/
def pageRows (s : Store) (limit : Nat) (cursor : Option (String × Int)) :
    List FeedItem :=
  match cursor with
  | none =>
    (sortDesc (s.feed_items.filter (fun f => f.is_filtered = false))).take limit
  | some c =>
    (sortDesc (s.feed_items.filter
      (fun f => f.is_filtered = false ∧ keyLT (keyOf f) c))).take limit

/-- One element of the feed-skeleton response: the post uri, plus the
repost reason when the row's `repost_uri` is truthy (non-NULL, non-empty). -/
structure SkeletonItem where
  post : String
  reason_repost : Option String
  deriving Repr, DecidableEq

instance (α β : Type) [DecidableEq α] [DecidableEq β] :
    DecidableEq (Except α β) := fun a b =>
  match a, b with
  | .ok x, .ok y =>
    if h : x = y then .isTrue (by rw [h]) else .isFalse (by simp [h])
  | .error x, .error y =>
    if h : x = y then .isTrue (by rw [h]) else .isFalse (by simp [h])
  | .ok _, .error _ => .isFalse (by simp)
  | .error _, .ok _ => .isFalse (by simp)

/-- The projection done in `get_feed_skeleton`'s result loop
(`if row["repost_uri"]` is Python truthiness). -/
def toSkeletonItem (f : FeedItem) : SkeletonItem :=
  ⟨f.post_uri,
   match f.repost_uri with
   | some r => if r = "" then none else some r
   | none => none⟩

/-- `db.get_feed_skeleton`.  An uncaught `ValueError` from `int(parts[1])`
is `Except.error ()`.  Python's `if cursor:` makes `None` and the empty
string take the no-cursor branch; a cursor that does not split into exactly
two fields on `"::"` yields `rows = []`. -/
def get_feed_skeleton (s : Store) (limit : Nat) (cursor : Option String) :
    Except Unit (List SkeletonItem) :=
  match cursor with
  | none => .ok ((pageRows s limit none).map toSkeletonItem)
  | some c =>
    if c = "" then .ok ((pageRows s limit none).map toSkeletonItem)
    else
      match pySplit c "::" with
      | [cursor_time, cursor_id_str] =>
        match pyInt cursor_id_str with
        | none => .error ()
        | some cursor_id =>
          .ok ((pageRows s limit (some (cursor_time, cursor_id))).map toSkeletonItem)
      | _ => .ok []

/-! ### `filter.py` -/

/-- `filter.parse_did_from_uri`. -/
def parse_did_from_uri (at_uri : String) : Option String :=
  if ¬ pyStartsWith at_uri "at://" then none
  else
    let path := pyDrop at_uri 5
    let parts := pySplitOnce path "/"
    match parts with
    | [] => none
    | did :: _ => if pyStartsWith did "did:" then some did else none

/-- The timestamp normalisation in `filter.should_filter_repost`: a trailing
`Z` is rewritten to `+00:00` before `datetime.fromisoformat`. -/
def normalizeZ (s : String) : String :=
  if pyEndsWith s "Z" then pyDropLast s ++ "+00:00" else s

/-- `filter.should_filter_repost`.  `fromiso` abstracts
`datetime.fromisoformat` (UTC epoch seconds, `none` for a parse error),
`now` is `datetime.now(utc)` in epoch seconds, `maxAgeHours` is the
configured `SELF_REPOST_MAX_AGE_HOURS`. -/
def should_filter_repost (fromiso : String → Option Int) (now : Int)
    (maxAgeHours : Int) (s : Store) (reposter_did subject_uri : String) : Bool :=
  match parse_did_from_uri subject_uri with
  | none => false
  | some original_author =>
    if reposter_did ≠ original_author then false
    else
      match get_post subject_uri s with
      | none => false
      | some post =>
        match fromiso (normalizeZ post.created_at) with
        | none => false
        | some created_at =>
          if now - created_at < maxAgeHours * 3600 then true else false

/-! ### `server.py` event router -/

/-- The fields of a Jetstream commit record the router reads: `createdAt`
and `subject.uri` (absent key or absent nesting becomes `none`). -/
structure EventRecord where
  createdAt : Option String
  subject_uri : Option String
  deriving Repr, DecidableEq

/-- The `commit` object of a Jetstream event. -/
structure EventCommit where
  operation : String
  collection : String
  rkey : String
  record : EventRecord
  deriving Repr, DecidableEq

/-- A decoded Jetstream event (the fields `process_jetstream_event` reads). -/
structure Event where
  kind : String
  did : String
  commit : EventCommit
  deriving Repr, DecidableEq

/-- `server.handle_post_create`.  `nowIso` is the
`datetime.now(utc).isoformat()` default used when the record lacks
`createdAt`. -/
def handle_post_create (nowIso : String) (did : String) (commit : EventCommit)
    (s : Store) : Store :=
  let created_at := commit.record.createdAt.getD nowIso
  let post_uri := "at://" ++ did ++ "/app.bsky.feed.post/" ++ commit.rkey
  insert_feed_item post_uri created_at none none false
    (insert_post post_uri did created_at s)

/-- `server.handle_post_delete`. -/
def handle_post_delete (did : String) (commit : EventCommit) (s : Store) : Store :=
  let post_uri := "at://" ++ did ++ "/app.bsky.feed.post/" ++ commit.rkey
  delete_feed_items_by_post post_uri (delete_post post_uri s)

/-- `server.handle_repost_create`. -/
def handle_repost_create (fromiso : String → Option Int) (now : Int)
    (maxAgeHours : Int) (nowIso : String) (did : String) (commit : EventCommit)
    (s : Store) : Store :=
  let subject_uri := commit.record.subject_uri.getD ""
  let created_at := commit.record.createdAt.getD nowIso
  let repost_uri := "at://" ++ did ++ "/app.bsky.feed.repost/" ++ commit.rkey
  if subject_uri = "" then s
  else
    let is_filtered := should_filter_repost fromiso now maxAgeHours s did subject_uri
    insert_feed_item subject_uri created_at (some repost_uri) (some did)
      is_filtered s

/-- `server.handle_repost_delete`. -/
def handle_repost_delete (did : String) (commit : EventCommit) (s : Store) : Store :=
  let repost_uri := "at://" ++ did ++ "/app.bsky.feed.repost/" ++ commit.rkey
  delete_feed_items_by_repost repost_uri s

/-- `server.process_jetstream_event`. -/
def process_jetstream_event (fromiso : String → Option Int) (now : Int)
    (maxAgeHours : Int) (nowIso : String) (event : Event) (s : Store) : Store :=
  if event.kind ≠ "commit" then s
  else
    let commit := event.commit
    if commit.collection = "app.bsky.feed.post" then
      if commit.operation = "create" then
        handle_post_create nowIso event.did commit s
      else if commit.operation = "delete" then
        handle_post_delete event.did commit s
      else s
    else if commit.collection = "app.bsky.feed.repost" then
      if commit.operation = "create" then
        handle_repost_create fromiso now maxAgeHours nowIso event.did commit s
      else if commit.operation = "delete" then
        handle_repost_delete event.did commit s
      else s
    else s

/-! ### `follows.py` -/

/-- One reply of the paginated `app.bsky.graph.getFollows` endpoint:
either a non-200 response, or a page of follows with an optional
continuation cursor. -/
inductive PageResp where
  | err : PageResp
  | page : List Follow → Option String → PageResp
  deriving Repr, DecidableEq

/-- The accumulation loop of `follows.fetch_follows`, driven by the
sequence of replies the server returns: a non-200 reply breaks the loop
and returns the follows accumulated so far; a reply without a cursor ends
the loop normally.  (An exhausted reply list — which cannot happen against
a real server — also returns the accumulator.) -/
def fetchFollowsLoop : List PageResp → List Follow → List Follow
  | [], acc => acc
  | .err :: _, acc => acc
  | .page fs none :: _, acc => acc ++ fs
  | .page fs (some _) :: rest, acc => fetchFollowsLoop rest (acc ++ fs)

/-- `follows.fetch_follows` over the abstract reply sequence. -/
def fetch_follows (pages : List PageResp) : List Follow :=
  fetchFollowsLoop pages []

/-- `follows.refresh_follow_list`.  `resolve` is the result of
`resolve_handle_to_did` (`none` on failure), `pages` the reply sequence of
the follow fetch, `nowIso` the refresh timestamp.  Returns the new store
and the returned DID list. -/
def refresh_follow_list (resolve : Option String) (pages : List PageResp)
    (nowIso : String) (s : Store) : Store × List String :=
  match resolve with
  | none => (s, get_followed_dids s)
  | some my_did =>
    let follows := fetch_follows pages
    if follows = [] then (s, get_followed_dids s)
    else
      let s1 := replace_follows follows s
      let s2 := set_state "my_did" my_did s1
      let s3 := set_state "last_follow_refresh" nowIso s2
      (s3, follows.map Follow.did)

/-! ### The operations of the system, for invariant claims -/

/-- A store mutation of the system: a routed Jetstream event, a retention
sweep, or a follow-list refresh.  (Reads — `get_feed_skeleton`, `get_post`,
`get_state` — do not mutate the store.) -/
inductive Op where
  | event : (String → Option Int) → Int → Int → String → Event → Op
  | cleanup : String → Op
  | refresh : Option String → List PageResp → String → Op

/-- Apply one system operation to the store. -/
def applyOp (op : Op) (s : Store) : Store :=
  match op with
  | .event fromiso now maxAge nowIso ev => process_jetstream_event fromiso now maxAge nowIso ev s
  | .cleanup cutoff => (cleanup_old_data cutoff s).1
  | .refresh resolve pages nowIso => (refresh_follow_list resolve pages nowIso s).1

/-! ### The pagination walk -/

/-- All non-filtered rows in feed order: what a complete pagination of the
store should visit. -/
def nfSorted (s : Store) : List FeedItem :=
  sortDesc (s.feed_items.filter (fun f => f.is_filtered = false))

/-- Successive calls to the skeleton query, each next cursor taken from the
last returned row's `(sort_time, id)` — exactly the cursor
`"{sort_time}::{id}"` that `server.handle_get_feed_skeleton` hands out.
`fuel` bounds the number of pages; any fuel past the row count is enough. -/
def walkFrom (s : Store) (k : Nat) : Nat → Option (String × Int) → List FeedItem
  | 0, _ => []
  | fuel + 1, cur =>
    let rows := pageRows s k cur
    match rows.getLast? with
    | none => []
    | some last => rows ++ walkFrom s k fuel (some (keyOf last))

/-- The full pagination walk with page size `k`, starting with no cursor. -/
def walk (s : Store) (k : Nat) : List FeedItem :=
  walkFrom s k (s.feed_items.length + 1) none

/-! ### Concrete stores and events used to instantiate the theorems -/

/-- Four feed rows, one filtered, with a timestamp tie broken by id. -/
def pagDemo : Store :=
  ⟨[],
   [⟨0, "p0", none, none, "2024-01-03", false⟩,
    ⟨1, "p1", none, none, "2024-01-01", false⟩,
    ⟨2, "p2", none, none, "2024-01-02", true⟩,
    ⟨3, "p3", none, none, "2024-01-02", false⟩],
   4, [], []⟩

/-- A store with a single non-filtered feed row. -/
def oneItemDemo : Store :=
  ⟨[], [⟨0, "p0", none, none, "2024-01-01", false⟩], 1, [], []⟩

/-- A post-create commit event. -/
def postCreateEv : Event :=
  ⟨"commit", "did:plc:alice",
   ⟨"create", "app.bsky.feed.post", "rk1", ⟨some "2024-01-01T00:00:00Z", none⟩⟩⟩

/-- A post-delete commit event for the same record. -/
def postDeleteEv : Event :=
  ⟨"commit", "did:plc:alice",
   ⟨"delete", "app.bsky.feed.post", "rk1", ⟨none, none⟩⟩⟩

/-- A repost-delete commit event. -/
def repostDeleteEv : Event :=
  ⟨"commit", "did:plc:bob",
   ⟨"delete", "app.bsky.feed.repost", "rr1", ⟨none, none⟩⟩⟩

/-- A store holding one post, its direct feed row, and one repost row of it. -/
def postAndRepostDemo : Store :=
  ⟨[⟨"at://did:plc:alice/app.bsky.feed.post/rk1", "did:plc:alice",
     "2024-01-01T00:00:00Z"⟩],
   [⟨0, "at://did:plc:alice/app.bsky.feed.post/rk1", none, none,
     "2024-01-01T00:00:00Z", false⟩,
    ⟨1, "at://did:plc:alice/app.bsky.feed.post/rk1",
     some "at://did:plc:bob/app.bsky.feed.repost/rr1", some "did:plc:bob",
     "2024-01-02T00:00:00Z", false⟩],
   2, [], []⟩

/-- A stored follow set from an earlier successful refresh. -/
def prevFollowsDemo : Store :=
  ⟨[], [], 0, [⟨"did:plc:b", some "b.example"⟩], []⟩

/-- A fetch trace that succeeds on page one (with a continuation cursor)
and then hits a non-200 reply: the loop breaks with a partial list. -/
def partialPagesDemo : List PageResp :=
  [.page [⟨"did:plc:a", some "a.example"⟩] (some "cur1"), .err]

/-! ### Order theory of the TEXT comparison and the pagination key -/

theorem char_toNat_inj {a b : Char} (h : a.toNat = b.toNat) : a = b :=
  Char.eq_of_val_eq (UInt32.toNat.inj h)

theorem charListLt_irrefl : ∀ l : List Char, charListLt l l = false
  | [] => rfl
  | c :: cs => by simp [charListLt, charListLt_irrefl cs]

theorem charListLt_trans : ∀ a b c : List Char,
    charListLt a b = true → charListLt b c = true → charListLt a c = true := by
  intro a
  induction a with
  | nil =>
    intro b c hab hbc
    cases b with
    | nil => simp [charListLt] at hab
    | cons y ys =>
      cases c with
      | nil => simp [charListLt] at hbc
      | cons z zs => simp [charListLt]
  | cons x xs ih =>
    intro b c hab hbc
    cases b with
    | nil => simp [charListLt] at hab
    | cons y ys =>
      cases c with
      | nil => simp [charListLt] at hbc
      | cons z zs =>
        simp only [charListLt, Bool.or_eq_true, Bool.and_eq_true,
          decide_eq_true_eq, beq_iff_eq] at hab hbc ⊢
        rcases hab with h1 | ⟨h1, h2⟩
        · rcases hbc with g1 | ⟨g1, g2⟩
          · exact Or.inl (h1.trans g1)
          · exact Or.inl (by omega)
        · rcases hbc with g1 | ⟨g1, g2⟩
          · exact Or.inl (by omega)
          · exact Or.inr ⟨by omega, ih ys zs h2 g2⟩

theorem charListLt_conn : ∀ a b : List Char,
    charListLt a b = false → charListLt b a = false → a = b := by
  intro a
  induction a with
  | nil =>
    intro b h1 _
    cases b with
    | nil => rfl
    | cons y ys => simp [charListLt] at h1
  | cons x xs ih =>
    intro b h1 h2
    cases b with
    | nil => simp [charListLt] at h2
    | cons y ys =>
      simp only [charListLt, Bool.or_eq_false_iff, Bool.and_eq_false_iff,
        decide_eq_false_iff_not, beq_eq_false_iff_ne, ne_eq] at h1 h2
      have hxy : x.toNat = y.toNat := by omega
      rcases h1.2 with h | h
      · exact absurd hxy h
      · rcases h2.2 with g | g
        · exact absurd hxy.symm g
        · rw [char_toNat_inj hxy, ih ys h g]

theorem charListLt_asymm {a b : List Char} (h : charListLt a b = true) :
    charListLt b a = false := by
  by_contra h'
  have hba : charListLt b a = true := by
    revert h'; cases charListLt b a <;> simp
  have := charListLt_trans a b a h hba
  rw [charListLt_irrefl] at this
  exact Bool.false_ne_true this

theorem strLt_irrefl (s : String) : strLt s s = false :=
  charListLt_irrefl s.data

theorem strLt_trans {a b c : String} (hab : strLt a b = true)
    (hbc : strLt b c = true) : strLt a c = true :=
  charListLt_trans a.data b.data c.data hab hbc

theorem strLt_asymm {a b : String} (h : strLt a b = true) :
    strLt b a = false :=
  charListLt_asymm h

theorem strLt_conn {a b : String} (h1 : strLt a b = false)
    (h2 : strLt b a = false) : a = b :=
  String.ext (charListLt_conn a.data b.data h1 h2)

theorem keyLT_irrefl (p : String × Int) : ¬ keyLT p p := by
  intro h
  rcases h with h | ⟨_, h⟩
  · rw [strLt_irrefl] at h; exact Bool.false_ne_true h
  · omega

theorem keyLT_trans {p q r : String × Int} (hpq : keyLT p q)
    (hqr : keyLT q r) : keyLT p r := by
  rcases hpq with h1 | ⟨h1, h1'⟩
  · rcases hqr with g1 | ⟨g1, g1'⟩
    · exact Or.inl (strLt_trans h1 g1)
    · exact Or.inl (g1 ▸ h1)
  · rcases hqr with g1 | ⟨g1, g1'⟩
    · exact Or.inl (h1 ▸ g1)
    · exact Or.inr ⟨h1.trans g1, by omega⟩

theorem keyLT_asymm {p q : String × Int} (h : keyLT p q) : ¬ keyLT q p := by
  intro h'
  exact keyLT_irrefl p (keyLT_trans h h')

theorem keyLT_conn {p q : String × Int} (h1 : ¬ keyLT p q)
    (h2 : ¬ keyLT q p) : p = q := by
  unfold keyLT at h1 h2
  push_neg at h1 h2
  have hs1 : strLt p.1 q.1 = false := by
    cases hpq : strLt p.1 q.1
    · rfl
    · exact absurd hpq h1.1
  have hs2 : strLt q.1 p.1 = false := by
    cases hqp : strLt q.1 p.1
    · rfl
    · exact absurd hqp h2.1
  have hfst : p.1 = q.1 := strLt_conn hs1 hs2
  have hsnd : p.2 = q.2 := by
    have := h1.2 hfst
    have := h2.2 hfst.symm
    omega
  exact Prod.ext hfst hsnd

/-! ### `ORDER BY sort_time DESC, id DESC` is a sort -/

instance : IsTrans FeedItem rowGE := by
  constructor
  intro a b c hab hbc
  rcases hab with h | h
  · rcases hbc with g | g
    · exact Or.inl (keyLT_trans g h)
    · exact Or.inl (g ▸ h)
  · rcases hbc with g | g
    · exact Or.inl (h ▸ g)
    · exact Or.inr (g.trans h)

instance : IsTotal FeedItem rowGE := by
  constructor
  intro a b
  by_cases h1 : keyLT (keyOf b) (keyOf a)
  · exact Or.inl (Or.inl h1)
  · by_cases h2 : keyLT (keyOf a) (keyOf b)
    · exact Or.inr (Or.inl h2)
    · exact Or.inl (Or.inr (keyLT_conn h1 h2))

instance : IsTrans FeedItem rowGT :=
  ⟨fun _ _ _ hab hbc => keyLT_trans hbc hab⟩

instance : IsAntisymm FeedItem rowGT :=
  ⟨fun _ _ hab hba => absurd hab (keyLT_asymm hba)⟩

theorem sortDesc_perm (l : List FeedItem) : List.Perm (sortDesc l) l :=
  List.perm_insertionSort rowGE l

theorem sortDesc_sorted (l : List FeedItem) : (sortDesc l).Sorted rowGE :=
  List.sorted_insertionSort rowGE l

/-- A `rowGE`-sorted list with pairwise distinct ids is strictly sorted. -/
theorem pairwise_rowGT_of_sorted {l : List FeedItem} (hs : l.Sorted rowGE)
    (hne : l.Pairwise fun a b => a.id ≠ b.id) : l.Pairwise rowGT := by
  refine (hs.and hne).imp ?_
  rintro a b ⟨hge, hid⟩
  rcases hge with h | h
  · exact h
  · exfalso
    have hba : (b.id : Int) = (a.id : Int) := congrArg Prod.snd h
    have hab : a.id = b.id := by omega
    exact hid hab

/-- Pairwise distinct ids, stated via `Nodup` of the id column. -/
theorem pairwise_ne_id {l : List FeedItem} (h : (l.map FeedItem.id).Nodup) :
    l.Pairwise fun a b => a.id ≠ b.id :=
  List.pairwise_map.mp h

theorem idsNodup_of_perm {l l' : List FeedItem} (hp : List.Perm l l')
    (h : (l.map FeedItem.id).Nodup) : (l'.map FeedItem.id).Nodup :=
  (hp.map FeedItem.id).nodup h

theorem idsNodup_of_sublist {l l' : List FeedItem} (hs : List.Sublist l' l)
    (h : (l.map FeedItem.id).Nodup) : (l'.map FeedItem.id).Nodup :=
  List.Nodup.sublist (hs.map FeedItem.id) h

/-- The sorted non-filtered rows are strictly sorted when the feed table's
id column has no duplicates (always true of the AUTOINCREMENT column). -/
theorem nfSorted_pairwise_rowGT {s : Store}
    (hids : (s.feed_items.map FeedItem.id).Nodup) :
    (nfSorted s).Pairwise rowGT := by
  have h1 : ((s.feed_items.filter (fun f => f.is_filtered = false)).map FeedItem.id).Nodup :=
    idsNodup_of_sublist (List.filter_sublist _) hids
  have h2 := idsNodup_of_perm (sortDesc_perm _).symm h1
  exact pairwise_rowGT_of_sorted (sortDesc_sorted _) (pairwise_ne_id h2)

theorem nfSorted_perm (s : Store) :
    List.Perm (nfSorted s) (s.feed_items.filter (fun f => f.is_filtered = false)) :=
  sortDesc_perm _

/-- The no-cursor branch of the query is the head of the full ordered list. -/
theorem pageRows_none (s : Store) (limit : Nat) :
    pageRows s limit none = (nfSorted s).take limit := rfl

/-- The cursor branch of the query equals filtering the full ordered list by
the cursor condition and taking a page: sorting after the SQL `WHERE`
commutes with filtering the sorted list, because strictly sorted
permutations coincide. -/
theorem pageRows_some (s : Store) (limit : Nat) (c : String × Int)
    (hids : (s.feed_items.map FeedItem.id).Nodup) :
    pageRows s limit (some c) =
      ((nfSorted s).filter (fun f => decide (keyLT (keyOf f) c))).take limit := by
  have hfe :
      s.feed_items.filter (fun f => f.is_filtered = false ∧ keyLT (keyOf f) c) =
        (s.feed_items.filter (fun f => f.is_filtered = false)).filter
          (fun f => decide (keyLT (keyOf f) c)) := by
    rw [List.filter_filter]
    apply List.filter_congr
    intro f _
    by_cases h1 : f.is_filtered = false <;>
      by_cases h2 : keyLT (keyOf f) c <;> simp [h1, h2]
  have hperm :
      List.Perm
        (sortDesc (s.feed_items.filter (fun f => f.is_filtered = false ∧ keyLT (keyOf f) c)))
        ((nfSorted s).filter (fun f => decide (keyLT (keyOf f) c))) := by
    refine (sortDesc_perm _).trans ?_
    rw [hfe]
    exact ((nfSorted_perm s).symm.filter _)
  have hsorted₁ :
      (sortDesc (s.feed_items.filter
        (fun f => f.is_filtered = false ∧ keyLT (keyOf f) c))).Pairwise rowGT := by
    have hsub : List.Sublist
        (s.feed_items.filter (fun f => f.is_filtered = false ∧ keyLT (keyOf f) c))
        s.feed_items := List.filter_sublist _
    have hn := idsNodup_of_perm (sortDesc_perm _).symm (idsNodup_of_sublist hsub hids)
    exact pairwise_rowGT_of_sorted (sortDesc_sorted _) (pairwise_ne_id hn)
  have hsorted₂ :
      ((nfSorted s).filter (fun f => decide (keyLT (keyOf f) c))).Pairwise rowGT :=
    (nfSorted_pairwise_rowGT hids).filter _
  have heq := List.eq_of_perm_of_sorted hperm hsorted₁ hsorted₂
  show (sortDesc _).take limit = _
  rw [heq]

/-- In a strictly descending list split as `pre ++ x :: suf`, the rows with
key strictly below `x`'s are exactly `suf`. -/
theorem filter_keyLT_of_pairwise {R pre suf : List FeedItem} {x : FeedItem}
    (hR : R.Pairwise rowGT) (hdecomp : R = pre ++ x :: suf) :
    R.filter (fun r => decide (keyLT (keyOf r) (keyOf x))) = suf := by
  subst hdecomp
  rw [List.pairwise_append] at hR
  obtain ⟨hpre, hxsuf, hcross⟩ := hR
  rw [List.filter_append]
  have h1 : pre.filter (fun r => decide (keyLT (keyOf r) (keyOf x))) = [] := by
    rw [List.filter_eq_nil_iff]
    intro a ha
    have hgt : rowGT a x := hcross a ha x (List.mem_cons_self x suf)
    simp only [decide_eq_true_eq]
    exact keyLT_asymm hgt
  have hxlt : ¬ keyLT (keyOf x) (keyOf x) := keyLT_irrefl _
  have h2 : suf.filter (fun r => decide (keyLT (keyOf r) (keyOf x))) = suf := by
    rw [List.filter_eq_self]
    intro a ha
    have hgt : rowGT x a := (List.pairwise_cons.mp hxsuf).1 a ha
    simpa using hgt
  rw [h1]
  simp only [List.nil_append, List.filter_cons]
  rw [if_neg (by simpa using hxlt), h2]

/-- Master lemma for the pagination walk: if the rows strictly below the
cursor are exactly the suffix `t` of the full ordered list, the remaining
walk returns `t` — every remaining row exactly once, in order. -/
theorem walkFrom_some (s : Store) (k : Nat)
    (hids : (s.feed_items.map FeedItem.id).Nodup) (hk : 1 ≤ k) :
    ∀ fuel (c : String × Int) (A t : List FeedItem),
      nfSorted s = A ++ t →
      (nfSorted s).filter (fun r => decide (keyLT (keyOf r) c)) = t →
      t.length ≤ fuel →
      walkFrom s k fuel (some c) = t := by
  intro fuel
  induction fuel with
  | zero =>
    intro c A t _ _ hlen
    have ht : t = [] := List.length_eq_zero.mp (Nat.le_zero.mp hlen)
    simp [walkFrom, ht]
  | succ fuel ih =>
    intro c A t hAt hfil hlen
    have hrows : pageRows s k (some c) = t.take k := by
      rw [pageRows_some s k c hids, hfil]
    by_cases ht : t = []
    · simp [walkFrom, hrows, ht]
    · have hrne : t.take k ≠ [] := by
        obtain ⟨k', rfl⟩ : ∃ k', k = k' + 1 := ⟨k - 1, by omega⟩
        obtain ⟨hd, tt, rfl⟩ : ∃ hd tt, t = hd :: tt := by
          cases t with
          | nil => exact absurd rfl ht
          | cons hd tt => exact ⟨hd, tt, rfl⟩
        simp [List.take_cons]
      set x := (t.take k).getLast hrne with hx
      have hlast : (t.take k).getLast? = some x := List.getLast?_eq_getLast _ hrne
      have hsplit : t.take k ++ t.drop k = t := List.take_append_drop k t
      have hrdecomp : (t.take k).dropLast ++ [x] = t.take k :=
        List.dropLast_append_getLast hrne
      have hdecomp : nfSorted s = (A ++ (t.take k).dropLast) ++ x :: t.drop k := by
        calc nfSorted s = A ++ t := hAt
          _ = A ++ (t.take k ++ t.drop k) := by rw [hsplit]
          _ = A ++ (((t.take k).dropLast ++ [x]) ++ t.drop k) := by rw [hrdecomp]
          _ = (A ++ (t.take k).dropLast) ++ x :: t.drop k := by
              simp [List.append_assoc]
      have hfil' :
          (nfSorted s).filter (fun r => decide (keyLT (keyOf r) (keyOf x))) =
            t.drop k :=
        filter_keyLT_of_pairwise (nfSorted_pairwise_rowGT hids) hdecomp
      have hAt' : nfSorted s = ((A ++ (t.take k).dropLast) ++ [x]) ++ t.drop k := by
        rw [hdecomp]; simp
      have hlen' : (t.drop k).length ≤ fuel := by
        rw [List.length_drop]
        omega
      have hrec := ih (keyOf x) ((A ++ (t.take k).dropLast) ++ [x]) (t.drop k)
        hAt' hfil' hlen'
      simp only [walkFrom, hrows, hlast]
      rw [hrec, hsplit]

/-- The complete pagination walk visits exactly the non-filtered rows in
feed order, each exactly once. -/
theorem walk_eq_nfSorted (s : Store) (k : Nat)
    (hids : (s.feed_items.map FeedItem.id).Nodup) (hk : 1 ≤ k) :
    walk s k = nfSorted s := by
  unfold walk
  have hrows : pageRows s k none = (nfSorted s).take k := rfl
  have hnflen : (nfSorted s).length ≤ s.feed_items.length := by
    rw [(nfSorted_perm s).length_eq]
    exact List.length_filter_le _ _
  by_cases hnf : nfSorted s = []
  · simp [walkFrom, hrows, hnf]
  · have hrne : (nfSorted s).take k ≠ [] := by
      obtain ⟨k', rfl⟩ : ∃ k', k = k' + 1 := ⟨k - 1, by omega⟩
      obtain ⟨hd, tt, heq⟩ : ∃ hd tt, nfSorted s = hd :: tt := by
        cases hval : nfSorted s with
        | nil => exact absurd hval hnf
        | cons hd tt => exact ⟨hd, tt, rfl⟩
      rw [heq]
      simp [List.take_cons]
    set x := ((nfSorted s).take k).getLast hrne with hx
    have hlast : ((nfSorted s).take k).getLast? = some x :=
      List.getLast?_eq_getLast _ hrne
    have hsplit : (nfSorted s).take k ++ (nfSorted s).drop k = nfSorted s :=
      List.take_append_drop k (nfSorted s)
    have hrdecomp : ((nfSorted s).take k).dropLast ++ [x] = (nfSorted s).take k :=
      List.dropLast_append_getLast hrne
    have hdecomp : nfSorted s =
        ((nfSorted s).take k).dropLast ++ x :: (nfSorted s).drop k := by
      calc nfSorted s = (nfSorted s).take k ++ (nfSorted s).drop k := hsplit.symm
        _ = (((nfSorted s).take k).dropLast ++ [x]) ++ (nfSorted s).drop k := by
            rw [hrdecomp]
        _ = ((nfSorted s).take k).dropLast ++ x :: (nfSorted s).drop k := by
            simp [List.append_assoc]
    have hfil' :
        (nfSorted s).filter (fun r => decide (keyLT (keyOf r) (keyOf x))) =
          (nfSorted s).drop k :=
      filter_keyLT_of_pairwise (nfSorted_pairwise_rowGT hids) hdecomp
    have hAt' : nfSorted s =
        (((nfSorted s).take k).dropLast ++ [x]) ++ (nfSorted s).drop k := by
      calc nfSorted s
          = ((nfSorted s).take k).dropLast ++ x :: (nfSorted s).drop k := hdecomp
        _ = (((nfSorted s).take k).dropLast ++ [x]) ++ (nfSorted s).drop k := by
            simp
    have hlen' : ((nfSorted s).drop k).length ≤ s.feed_items.length := by
      rw [List.length_drop]
      omega
    have hrec := walkFrom_some s k hids hk s.feed_items.length (keyOf x)
      (((nfSorted s).take k).dropLast ++ [x]) ((nfSorted s).drop k)
      hAt' hfil' hlen'
    simp only [walkFrom, hrows, hlast]
    rw [hrec, hsplit]

/-! ### Claims -/

/-- Claim C1: for a repost where the reposter equals the author extracted
from the subject URI and the subject post is stored with a parseable
creation timestamp, `should_filter_repost` returns true exactly when the
post's age `now - created` is strictly less than the threshold
`SELF_REPOST_MAX_AGE_HOURS` (in seconds); at the threshold or above it
returns false. -/
theorem should_filter_repost_age_threshold
    (fromiso : String → Option Int) (now maxAgeHours : Int) (s : Store)
    (reposter subject : String) (p : Post) (created : Int)
    (hparse : parse_did_from_uri subject = some reposter)
    (hpost : get_post subject s = some p)
    (hts : fromiso (normalizeZ p.created_at) = some created) :
    (should_filter_repost fromiso now maxAgeHours s reposter subject = true ↔
      now - created < maxAgeHours * 3600) ∧
    (maxAgeHours * 3600 ≤ now - created →
      should_filter_repost fromiso now maxAgeHours s reposter subject = false) := by
  unfold should_filter_repost
  rw [hparse]
  simp only [ne_eq, not_true_eq_false, if_false, hpost, hts]
  constructor
  · constructor
    · intro h
      by_contra hage
      rw [if_neg hage] at h
      exact Bool.false_ne_true h
    · intro h
      rw [if_pos h]
  · intro h
    rw [if_neg (by omega)]

/-- Witness for C1 at a concrete store, timestamp parser and clock. -/
theorem should_filter_repost_age_threshold_witness :
    (should_filter_repost
        (fun t => if t = "2024-01-01T00:00:00+00:00" then some 0 else none)
        3600 24
        ⟨[⟨"at://did:plc:a/app.bsky.feed.post/r1", "did:plc:a",
           "2024-01-01T00:00:00Z"⟩], [], 0, [], []⟩
        "did:plc:a" "at://did:plc:a/app.bsky.feed.post/r1" = true ↔
      (3600 : Int) - 0 < 24 * 3600) ∧
    ((24 : Int) * 3600 ≤ 3600 - 0 →
      should_filter_repost
        (fun t => if t = "2024-01-01T00:00:00+00:00" then some 0 else none)
        3600 24
        ⟨[⟨"at://did:plc:a/app.bsky.feed.post/r1", "did:plc:a",
           "2024-01-01T00:00:00Z"⟩], [], 0, [], []⟩
        "did:plc:a" "at://did:plc:a/app.bsky.feed.post/r1" = false) :=
  should_filter_repost_age_threshold
    (fun t => if t = "2024-01-01T00:00:00+00:00" then some 0 else none)
    3600 24
    ⟨[⟨"at://did:plc:a/app.bsky.feed.post/r1", "did:plc:a",
       "2024-01-01T00:00:00Z"⟩], [], 0, [], []⟩
    "did:plc:a" "at://did:plc:a/app.bsky.feed.post/r1"
    ⟨"at://did:plc:a/app.bsky.feed.post/r1", "did:plc:a",
     "2024-01-01T00:00:00Z"⟩ 0
    (by decide) (by decide) (by decide)

/-- Claim C2: when the subject URI yields no author identifier, or yields
one different from the reposter, `should_filter_repost` returns false. -/
theorem should_filter_repost_not_self
    (fromiso : String → Option Int) (now maxAgeHours : Int) (s : Store)
    (reposter subject : String)
    (h : ∀ a, parse_did_from_uri subject = some a → reposter ≠ a) :
    should_filter_repost fromiso now maxAgeHours s reposter subject = false := by
  unfold should_filter_repost
  cases hp : parse_did_from_uri subject with
  | none => rfl
  | some a =>
    have hne : reposter ≠ a := h a hp
    simp [hne]

/-- Witness for C2: an unparseable subject and a foreign-author subject. -/
theorem should_filter_repost_not_self_witness :
    should_filter_repost (fun _ => none) 0 24 Store.empty "did:plc:a"
      "at://did:plc:b/app.bsky.feed.post/r1" = false :=
  should_filter_repost_not_self (fun _ => none) 0 24 Store.empty "did:plc:a"
    "at://did:plc:b/app.bsky.feed.post/r1"
    (fun a ha => by
      have hv : parse_did_from_uri "at://did:plc:b/app.bsky.feed.post/r1" =
          some "did:plc:b" := by decide
      rw [hv] at ha
      cases ha
      decide)

/-- Claim C10: a non-empty cursor splitting on `"::"` into exactly two
fields whose second field is not a decimal integer makes
`get_feed_skeleton` raise (the uncaught `ValueError` of `int(parts[1])`)
instead of returning a page. -/
theorem get_feed_skeleton_bad_id_raises (s : Store) (limit : Nat)
    (c ct cis : String) (hc : c ≠ "") (hsplit : pySplit c "::" = [ct, cis])
    (hint : pyInt cis = none) :
    get_feed_skeleton s limit (some c) = .error () := by
  simp only [get_feed_skeleton, if_neg hc, hsplit, hint]

/-- Witness for C10 at the cursor `"2024-01-01T00:00:00::abc"`. -/
theorem get_feed_skeleton_bad_id_raises_witness :
    get_feed_skeleton Store.empty 50 (some "2024-01-01T00:00:00::abc") =
      .error () :=
  get_feed_skeleton_bad_id_raises Store.empty 50 "2024-01-01T00:00:00::abc"
    "2024-01-01T00:00:00" "abc" (by decide) (by decide) (by decide)

/-- Claim C3: with a well-formed cursor `"<sort_time>::<id>"`,
`get_feed_skeleton` returns the projection of a page that (i) is exactly
the first `limit` rows of the ordered non-filtered rows strictly below the
cursor key, (ii) has at most `limit` rows, (iii) is strictly sorted by
`(sort_time desc, id desc)`, (iv) contains only non-filtered stored rows
below the cursor; and successive pages — each cursor taken from the last
row of the previous page — visit every non-filtered row exactly once:
the concatenated walk equals `nfSorted`, a duplicate-free reordering of
the non-filtered rows, with filtered rows skipped and not counted. -/
theorem get_feed_skeleton_pagination (s : Store) (k : Nat)
    (c ct cis : String) (ci : Int)
    (hids : (s.feed_items.map FeedItem.id).Nodup) (hk : 1 ≤ k)
    (hc : c ≠ "") (hsplit : pySplit c "::" = [ct, cis])
    (hint : pyInt cis = some ci) :
    get_feed_skeleton s k (some c) =
      .ok ((pageRows s k (some (ct, ci))).map toSkeletonItem)
    ∧ pageRows s k (some (ct, ci)) =
        ((nfSorted s).filter (fun f => decide (keyLT (keyOf f) (ct, ci)))).take k
    ∧ (pageRows s k (some (ct, ci))).length ≤ k
    ∧ (pageRows s k (some (ct, ci))).Pairwise rowGT
    ∧ (∀ r ∈ pageRows s k (some (ct, ci)),
        r.is_filtered = false ∧ r ∈ s.feed_items ∧ keyLT (keyOf r) (ct, ci))
    ∧ walk s k = nfSorted s
    ∧ List.Perm (nfSorted s)
        (s.feed_items.filter (fun f => f.is_filtered = false))
    ∧ (nfSorted s).Pairwise rowGT := by
  refine ⟨?_, ?_, ?_, ?_, ?_, ?_, ?_, ?_⟩
  · simp only [get_feed_skeleton, if_neg hc, hsplit, hint]
  · exact pageRows_some s k (ct, ci) hids
  · rw [pageRows_some s k (ct, ci) hids]
    exact List.length_take_le k _
  · rw [pageRows_some s k (ct, ci) hids]
    exact ((nfSorted_pairwise_rowGT hids).filter _).sublist (List.take_sublist _ _)
  · intro r hr
    rw [pageRows_some s k (ct, ci) hids] at hr
    have hr' := (List.take_sublist _ _).mem hr
    rw [List.mem_filter] at hr'
    obtain ⟨hmem, hlt⟩ := hr'
    have hmem' := (nfSorted_perm s).mem_iff.mp hmem
    rw [List.mem_filter] at hmem'
    refine ⟨by simpa using hmem'.2, hmem'.1, by simpa using hlt⟩
  · exact walk_eq_nfSorted s k hids hk
  · exact nfSorted_perm s
  · exact nfSorted_pairwise_rowGT hids

/-- Witness for C3: a page-2 cursor into a four-row store with a timestamp
tie and an interleaved filtered row. -/
theorem get_feed_skeleton_pagination_witness :
    get_feed_skeleton pagDemo 2 (some "2024-01-02::3") =
      .ok ((pageRows pagDemo 2 (some ("2024-01-02", 3))).map toSkeletonItem)
    ∧ walk pagDemo 2 = nfSorted pagDemo :=
  have h := get_feed_skeleton_pagination pagDemo 2 "2024-01-02::3"
    "2024-01-02" "3" 3 (by decide) (by decide) (by decide) (by decide)
    (by decide)
  ⟨h.1, h.2.2.2.2.2.1⟩

/-- Counterexample to Claim C4: the malformed cursor `"abc"` does not
return the newest-first page — it returns an empty page. -/
theorem get_feed_skeleton_malformed_counterexample :
    get_feed_skeleton oneItemDemo 50 (some "abc") ≠
      get_feed_skeleton oneItemDemo 50 none := by
  decide

/-- Claim C4 (amended): an absent or empty cursor starts from the newest
row, returning the first `limit` non-filtered rows in feed order; but a
non-empty malformed cursor — one that does not split into exactly two
`"::"`-separated fields — yields an empty page, not the newest page. -/
theorem get_feed_skeleton_no_cursor (s : Store) (limit : Nat) :
    get_feed_skeleton s limit none =
      .ok (((nfSorted s).take limit).map toSkeletonItem)
    ∧ get_feed_skeleton s limit (some "") =
      .ok (((nfSorted s).take limit).map toSkeletonItem)
    ∧ ∀ c : String, c ≠ "" → (pySplit c "::").length ≠ 2 →
        get_feed_skeleton s limit (some c) = .ok [] := by
  refine ⟨rfl, rfl, ?_⟩
  intro c hc hlen
  cases hs : pySplit c "::" with
  | nil => simp [get_feed_skeleton, if_neg hc, hs]
  | cons a t =>
    cases t with
    | nil => simp [get_feed_skeleton, if_neg hc, hs]
    | cons b t2 =>
      cases t2 with
      | nil => exact absurd (by rw [hs]; rfl) hlen
      | cons d t3 => simp [get_feed_skeleton, if_neg hc, hs]

/-- Witness for the amended C4 at the malformed cursor `"abc"`. -/
theorem get_feed_skeleton_no_cursor_witness :
    get_feed_skeleton oneItemDemo 50 (some "abc") = .ok [] :=
  (get_feed_skeleton_no_cursor oneItemDemo 50).2.2 "abc" (by decide) (by decide)

theorem insert_post_uri_present (u a c : String) (st : Store) :
    (insert_post u a c st).posts.any (fun p => p.uri == u) = true := by
  unfold insert_post
  by_cases h : st.posts.any (fun p => p.uri == u)
  · rw [if_pos h]; exact h
  · rw [if_neg h]
    simp [List.any_append]

theorem insert_post_already (u a c : String) (st : Store)
    (h : st.posts.any (fun p => p.uri == u) = true) :
    insert_post u a c st = st := by
  unfold insert_post
  rw [if_pos h]

theorem insert_post_feed_items (u a c : String) (st : Store) :
    (insert_post u a c st).feed_items = st.feed_items := by
  unfold insert_post
  split <;> rfl

/-- Counterexample to Claim C5: delivering the same post-create commit
twice does not leave the store as after one delivery. -/
theorem process_duplicate_create_counterexample :
    process_jetstream_event (fun _ => none) 0 24 "2024-01-01T00:00:00Z"
        postCreateEv
        (process_jetstream_event (fun _ => none) 0 24 "2024-01-01T00:00:00Z"
          postCreateEv Store.empty) ≠
      process_jetstream_event (fun _ => none) 0 24 "2024-01-01T00:00:00Z"
        postCreateEv Store.empty := by
  decide

/-- Claim C5 (amended): on a duplicated create commit, the Post table is
deduplicated (`INSERT OR IGNORE`) but the FeedItem insert is a plain
append: the second delivery of a post-create adds no Post row yet appends
one more FeedItem row, and the second delivery of a repost-create appends
one more FeedItem row whenever the record carries a subject. -/
theorem process_duplicate_create (fromiso : String → Option Int)
    (now maxAgeHours : Int) (nowIso : String) (ev : Event) (s : Store) :
    (ev.kind = "commit" → ev.commit.collection = "app.bsky.feed.post" →
      ev.commit.operation = "create" →
      (process_jetstream_event fromiso now maxAgeHours nowIso ev
          (process_jetstream_event fromiso now maxAgeHours nowIso ev s)).posts =
        (process_jetstream_event fromiso now maxAgeHours nowIso ev s).posts ∧
      (process_jetstream_event fromiso now maxAgeHours nowIso ev
          (process_jetstream_event fromiso now maxAgeHours nowIso ev s)).feed_items.length =
        (process_jetstream_event fromiso now maxAgeHours nowIso ev s).feed_items.length + 1) ∧
    (ev.kind = "commit" → ev.commit.collection = "app.bsky.feed.repost" →
      ev.commit.operation = "create" →
      (process_jetstream_event fromiso now maxAgeHours nowIso ev
          (process_jetstream_event fromiso now maxAgeHours nowIso ev s)).feed_items.length =
        (process_jetstream_event fromiso now maxAgeHours nowIso ev s).feed_items.length +
          (if ev.commit.record.subject_uri.getD "" = "" then 0 else 1)) := by
  constructor
  · intro hkind hcoll hop
    have hred : ∀ st, process_jetstream_event fromiso now maxAgeHours nowIso ev st =
        handle_post_create nowIso ev.did ev.commit st := by
      intro st
      simp [process_jetstream_event, hkind, hcoll, hop]
    rw [hred, hred]
    constructor
    · show (insert_feed_item _ _ _ _ _ (insert_post _ _ _ _)).posts = _
      have hpres : (handle_post_create nowIso ev.did ev.commit s).posts.any
          (fun p => p.uri ==
            "at://" ++ ev.did ++ "/app.bsky.feed.post/" ++ ev.commit.rkey) = true := by
        show (insert_feed_item _ _ _ _ _ (insert_post _ _ _ _)).posts.any _ = true
        exact insert_post_uri_present _ _ _ _
      show (insert_post _ _ _ _).posts = _
      rw [insert_post_already _ _ _ _ hpres]
    · show ((insert_post _ _ _ _).feed_items ++ [_]).length = _
      rw [insert_post_feed_items]
      simp
  · intro hkind hcoll hop
    have hcoll' : ¬ ev.commit.collection = "app.bsky.feed.post" := by
      rw [hcoll]; decide
    have hred : ∀ st, process_jetstream_event fromiso now maxAgeHours nowIso ev st =
        handle_repost_create fromiso now maxAgeHours nowIso ev.did ev.commit st := by
      intro st
      simp [process_jetstream_event, hkind, hcoll, hcoll', hop]
    rw [hred, hred]
    by_cases hsub : ev.commit.record.subject_uri.getD "" = ""
    · simp [handle_repost_create, hsub]
    · simp [handle_repost_create, hsub, insert_feed_item]

/-- Witness for the amended C5 on a concrete post-create event. -/
theorem process_duplicate_create_witness :
    (process_jetstream_event (fun _ => none) 0 24 "2024-01-01T00:00:00Z"
        postCreateEv
        (process_jetstream_event (fun _ => none) 0 24 "2024-01-01T00:00:00Z"
          postCreateEv Store.empty)).posts =
      (process_jetstream_event (fun _ => none) 0 24 "2024-01-01T00:00:00Z"
        postCreateEv Store.empty).posts ∧
    (process_jetstream_event (fun _ => none) 0 24 "2024-01-01T00:00:00Z"
        postCreateEv
        (process_jetstream_event (fun _ => none) 0 24 "2024-01-01T00:00:00Z"
          postCreateEv Store.empty)).feed_items.length =
      (process_jetstream_event (fun _ => none) 0 24 "2024-01-01T00:00:00Z"
        postCreateEv Store.empty).feed_items.length + 1 :=
  (process_duplicate_create (fun _ => none) 0 24 "2024-01-01T00:00:00Z"
    postCreateEv Store.empty).1 (by decide) (by decide) (by decide)

/-- Claim C6: a post-delete for uri `U` removes the Post row for `U` and
every FeedItem referencing `U` (its direct appearance and all repost
appearances); a repost-delete for repost uri `R` removes exactly the
FeedItems whose repost uri is `R`, leaving the Post table and every other
row — in particular the original post's direct feed row, whose repost uri
is NULL — unchanged. -/
theorem process_delete_events (fromiso : String → Option Int)
    (now maxAgeHours : Int) (nowIso : String) (ev : Event) (s : Store)
    (hkind : ev.kind = "commit") (hop : ev.commit.operation = "delete") :
    (ev.commit.collection = "app.bsky.feed.post" →
      (∀ p : Post,
        p ∈ (process_jetstream_event fromiso now maxAgeHours nowIso ev s).posts ↔
          p ∈ s.posts ∧
            p.uri ≠ "at://" ++ ev.did ++ "/app.bsky.feed.post/" ++ ev.commit.rkey) ∧
      (∀ f : FeedItem,
        f ∈ (process_jetstream_event fromiso now maxAgeHours nowIso ev s).feed_items ↔
          f ∈ s.feed_items ∧
            f.post_uri ≠ "at://" ++ ev.did ++ "/app.bsky.feed.post/" ++ ev.commit.rkey)) ∧
    (ev.commit.collection = "app.bsky.feed.repost" →
      (process_jetstream_event fromiso now maxAgeHours nowIso ev s).posts = s.posts ∧
      (∀ f : FeedItem,
        f ∈ (process_jetstream_event fromiso now maxAgeHours nowIso ev s).feed_items ↔
          f ∈ s.feed_items ∧
            f.repost_uri ≠
              some ("at://" ++ ev.did ++ "/app.bsky.feed.repost/" ++ ev.commit.rkey))) := by
  have hop' : ¬ ev.commit.operation = "create" := by
    rw [hop]; decide
  constructor
  · intro hcoll
    have hred : process_jetstream_event fromiso now maxAgeHours nowIso ev s =
        handle_post_delete ev.did ev.commit s := by
      simp [process_jetstream_event, hkind, hcoll, hop, hop']
    rw [hred]
    constructor
    · intro p
      simp [handle_post_delete, delete_post, delete_feed_items_by_post,
        List.mem_filter]
    · intro f
      simp [handle_post_delete, delete_post, delete_feed_items_by_post,
        List.mem_filter]
  · intro hcoll
    have hcoll' : ¬ ev.commit.collection = "app.bsky.feed.post" := by
      rw [hcoll]; decide
    have hred : process_jetstream_event fromiso now maxAgeHours nowIso ev s =
        handle_repost_delete ev.did ev.commit s := by
      simp [process_jetstream_event, hkind, hcoll, hcoll', hop, hop']
    rw [hred]
    refine ⟨rfl, ?_⟩
    intro f
    simp [handle_repost_delete, delete_feed_items_by_repost, List.mem_filter]

/-- Witness for C6: deleting the repost leaves the direct feed row of the
post in place; the membership characterisation is instantiated at the
direct row and the repost-delete event. -/
theorem process_delete_events_witness :
    (process_jetstream_event (fun _ => none) 0 24 "x" repostDeleteEv
        postAndRepostDemo).posts = postAndRepostDemo.posts ∧
    ((⟨0, "at://did:plc:alice/app.bsky.feed.post/rk1", none, none,
        "2024-01-01T00:00:00Z", false⟩ : FeedItem) ∈
      (process_jetstream_event (fun _ => none) 0 24 "x" repostDeleteEv
        postAndRepostDemo).feed_items ↔
      (⟨0, "at://did:plc:alice/app.bsky.feed.post/rk1", none, none,
        "2024-01-01T00:00:00Z", false⟩ : FeedItem) ∈ postAndRepostDemo.feed_items ∧
      (none : Option String) ≠
        some ("at://" ++ "did:plc:bob" ++ "/app.bsky.feed.repost/" ++ "rr1")) :=
  have h := (process_delete_events (fun _ => none) 0 24 "x" repostDeleteEv
    postAndRepostDemo (by decide) (by decide)).2 (by decide)
  ⟨h.1, h.2 ⟨0, "at://did:plc:alice/app.bsky.feed.post/rk1", none, none,
    "2024-01-01T00:00:00Z", false⟩⟩

theorem length_filter_not_add (p : α → Bool) (l : List α) :
    (l.filter (fun a => decide (¬ p a = true))).length + (l.filter p).length
      = l.length := by
  rw [← List.countP_eq_length_filter, ← List.countP_eq_length_filter]
  have h := List.length_eq_countP_add_countP p l
  omega

/-- Claim C7: the retention sweep removes exactly the feed rows whose
`sort_time` is strictly before the cutoff and the posts whose `created_at`
is strictly before the cutoff — every row at or after the cutoff keeps its
multiplicity — and the returned count is the number of rows removed. -/
theorem cleanup_old_data_exact (cutoff : String) (s : Store) :
    (∀ f : FeedItem,
      List.count f (cleanup_old_data cutoff s).1.feed_items =
        if strLt f.sort_time cutoff then 0 else List.count f s.feed_items)
    ∧ (∀ p : Post,
      List.count p (cleanup_old_data cutoff s).1.posts =
        if strLt p.created_at cutoff then 0 else List.count p s.posts)
    ∧ (cleanup_old_data cutoff s).1.feed_items.length +
        (cleanup_old_data cutoff s).1.posts.length +
        (cleanup_old_data cutoff s).2 =
      s.feed_items.length + s.posts.length := by
  refine ⟨?_, ?_, ?_⟩
  · intro f
    show List.count f (s.feed_items.filter _) = _
    by_cases h : strLt f.sort_time cutoff
    · rw [if_pos h, List.count_eq_zero]
      intro hmem
      rw [List.mem_filter] at hmem
      simp [h] at hmem
    · rw [if_neg h]
      apply List.count_filter
      simp [h]
  · intro p
    show List.count p (s.posts.filter _) = _
    by_cases h : strLt p.created_at cutoff
    · rw [if_pos h, List.count_eq_zero]
      intro hmem
      rw [List.mem_filter] at hmem
      simp [h] at hmem
    · rw [if_neg h]
      apply List.count_filter
      simp [h]
  · show (s.feed_items.filter _).length + (s.posts.filter _).length +
      ((s.feed_items.filter _).length + (s.posts.filter _).length) = _
    have h1 := length_filter_not_add (fun f => strLt f.sort_time cutoff) s.feed_items
    have h2 := length_filter_not_add (fun p => strLt p.created_at cutoff) s.posts
    omega

/-- Counterexample to Claim C8: a fetch that fails in mid-pagination after
one successful page returns a non-empty partial list, and that partial
list replaces the stored set — the refresh neither leaves the stored
follows unchanged nor returns the previously stored identifiers. -/
theorem refresh_follow_list_partial_counterexample :
    (refresh_follow_list (some "did:plc:me") partialPagesDemo "t"
        prevFollowsDemo).1.follows ≠ prevFollowsDemo.follows ∧
    (refresh_follow_list (some "did:plc:me") partialPagesDemo "t"
        prevFollowsDemo).2 ≠ get_followed_dids prevFollowsDemo := by
  decide

/-- Claim C8 (amended): the refresh keeps the stored set and returns the
previous identifiers when handle resolution fails or when the accumulated
fetch result is empty; any non-empty fetched list — including a partial
list accumulated before a mid-pagination failure — replaces the stored
set and is returned. -/
theorem refresh_follow_list_fail_open (resolve : Option String)
    (pages : List PageResp) (nowIso : String) (s : Store) :
    (resolve = none →
      refresh_follow_list resolve pages nowIso s = (s, get_followed_dids s)) ∧
    (fetch_follows pages = [] →
      refresh_follow_list resolve pages nowIso s = (s, get_followed_dids s)) ∧
    (∀ my_did, resolve = some my_did → fetch_follows pages ≠ [] →
      (refresh_follow_list resolve pages nowIso s).1.follows = fetch_follows pages ∧
      (refresh_follow_list resolve pages nowIso s).2 =
        (fetch_follows pages).map Follow.did ∧
      (refresh_follow_list resolve pages nowIso s).1.posts = s.posts ∧
      (refresh_follow_list resolve pages nowIso s).1.feed_items = s.feed_items) := by
  refine ⟨?_, ?_, ?_⟩
  · intro h
    rw [h]
    rfl
  · intro h
    cases resolve with
    | none => rfl
    | some d => simp [refresh_follow_list, h]
  · intro my_did hres hne
    rw [hres]
    simp [refresh_follow_list, hne, replace_follows, set_state]

/-- Witness for the amended C8: the partial fetch trace replaces the set. -/
theorem refresh_follow_list_fail_open_witness :
    (refresh_follow_list (some "did:plc:me") partialPagesDemo "t"
        prevFollowsDemo).1.follows = fetch_follows partialPagesDemo ∧
    (refresh_follow_list (some "did:plc:me") partialPagesDemo "t"
        prevFollowsDemo).2 = (fetch_follows partialPagesDemo).map Follow.did ∧
    (refresh_follow_list (some "did:plc:me") partialPagesDemo "t"
        prevFollowsDemo).1.posts = prevFollowsDemo.posts ∧
    (refresh_follow_list (some "did:plc:me") partialPagesDemo "t"
        prevFollowsDemo).1.feed_items = prevFollowsDemo.feed_items :=
  (refresh_follow_list_fail_open (some "did:plc:me") partialPagesDemo "t"
    prevFollowsDemo).2.2 "did:plc:me" (by decide) (by decide)

theorem insert_post_next_id (u a c : String) (st : Store) :
    (insert_post u a c st).next_id = st.next_id := by
  unfold insert_post
  split <;> rfl

theorem step_insert_feed_item (u t : String) (ru rd : Option String)
    (b : Bool) (st : Store) :
    st.next_id ≤ (insert_feed_item u t ru rd b st).next_id ∧
    ∀ f ∈ (insert_feed_item u t ru rd b st).feed_items,
      f ∈ st.feed_items ∨
        (st.next_id ≤ f.id ∧ f.id < (insert_feed_item u t ru rd b st).next_id) := by
  constructor
  · show st.next_id ≤ st.next_id + 1
    omega
  · intro f hf
    rcases List.mem_append.mp hf with h | h
    · exact Or.inl h
    · right
      have hfeq : f = ⟨st.next_id, u, ru, rd, t, b⟩ := by simpa using h
      subst hfeq
      show st.next_id ≤ st.next_id ∧ st.next_id < st.next_id + 1
      omega

theorem step_handle_post_create (ni d : String) (c : EventCommit) (st : Store) :
    st.next_id ≤ (handle_post_create ni d c st).next_id ∧
    ∀ f ∈ (handle_post_create ni d c st).feed_items,
      f ∈ st.feed_items ∨
        (st.next_id ≤ f.id ∧ f.id < (handle_post_create ni d c st).next_id) := by
  unfold handle_post_create
  have h := step_insert_feed_item
    ("at://" ++ d ++ "/app.bsky.feed.post/" ++ c.rkey)
    (c.record.createdAt.getD ni) none none false
    (insert_post ("at://" ++ d ++ "/app.bsky.feed.post/" ++ c.rkey) d
      (c.record.createdAt.getD ni) st)
  rwa [insert_post_feed_items, insert_post_next_id] at h

theorem step_handle_post_delete (d : String) (c : EventCommit) (st : Store) :
    (handle_post_delete d c st).next_id = st.next_id ∧
    ∀ f ∈ (handle_post_delete d c st).feed_items, f ∈ st.feed_items := by
  refine ⟨rfl, ?_⟩
  intro f hf
  exact (List.mem_filter.mp hf).1

theorem step_handle_repost_delete (d : String) (c : EventCommit) (st : Store) :
    (handle_repost_delete d c st).next_id = st.next_id ∧
    ∀ f ∈ (handle_repost_delete d c st).feed_items, f ∈ st.feed_items := by
  refine ⟨rfl, ?_⟩
  intro f hf
  exact (List.mem_filter.mp hf).1

/-- Claim C9: every operation of the system treats `feed_items` as
append-only — after any operation, each feed row either is byte-for-byte a
row of the previous state (in particular its filtered flag is unchanged)
or is a freshly inserted row with a new id; and the id invariant
`id < next_id` is preserved, so no later operation can ever update a row
in place either. -/
theorem feed_items_append_only (op : Op) (s : Store)
    (hinv : ∀ f ∈ s.feed_items, f.id < s.next_id) :
    s.next_id ≤ (applyOp op s).next_id
    ∧ (∀ f ∈ (applyOp op s).feed_items,
        f ∈ s.feed_items ∨ (s.next_id ≤ f.id ∧ f.id < (applyOp op s).next_id))
    ∧ (∀ f ∈ (applyOp op s).feed_items, f.id < (applyOp op s).next_id) := by
  have main : s.next_id ≤ (applyOp op s).next_id ∧
      (∀ f ∈ (applyOp op s).feed_items,
        f ∈ s.feed_items ∨ (s.next_id ≤ f.id ∧ f.id < (applyOp op s).next_id)) := by
    cases op with
    | event fi now ma ni ev =>
      simp only [applyOp, process_jetstream_event]
      split_ifs
      · exact ⟨Nat.le_refl _, fun f hf => Or.inl hf⟩
      · exact step_handle_post_create ni ev.did ev.commit s
      · have h := step_handle_post_delete ev.did ev.commit s
        exact ⟨h.1.ge, fun f hf => Or.inl (h.2 f hf)⟩
      · exact ⟨Nat.le_refl _, fun f hf => Or.inl hf⟩
      · simp only [handle_repost_create]
        split_ifs
        · exact ⟨Nat.le_refl _, fun f hf => Or.inl hf⟩
        · exact step_insert_feed_item _ _ _ _ _ s
      · have h := step_handle_repost_delete ev.did ev.commit s
        exact ⟨h.1.ge, fun f hf => Or.inl (h.2 f hf)⟩
      · exact ⟨Nat.le_refl _, fun f hf => Or.inl hf⟩
      · exact ⟨Nat.le_refl _, fun f hf => Or.inl hf⟩
    | cleanup cutoff =>
      refine ⟨Nat.le_refl _, ?_⟩
      intro f hf
      exact Or.inl (List.mem_filter.mp hf).1
    | refresh resolve pages nowIso =>
      cases resolve with
      | none => exact ⟨Nat.le_refl _, fun f hf => Or.inl hf⟩
      | some d =>
        simp only [applyOp, refresh_follow_list]
        split_ifs
        · exact ⟨Nat.le_refl _, fun f hf => Or.inl hf⟩
        · exact ⟨Nat.le_refl _, fun f hf => Or.inl hf⟩
  refine ⟨main.1, main.2, ?_⟩
  intro f hf
  rcases main.2 f hf with h | h
  · exact lt_of_lt_of_le (hinv f h) main.1
  · exact h.2

/-- Witness for C9: a retention sweep on a store holding one feed row. -/
theorem feed_items_append_only_witness :
    oneItemDemo.next_id ≤ (applyOp (.cleanup "2024-01-01") oneItemDemo).next_id
    ∧ (∀ f ∈ (applyOp (.cleanup "2024-01-01") oneItemDemo).feed_items,
        f ∈ oneItemDemo.feed_items ∨
          (oneItemDemo.next_id ≤ f.id ∧
            f.id < (applyOp (.cleanup "2024-01-01") oneItemDemo).next_id))
    ∧ (∀ f ∈ (applyOp (.cleanup "2024-01-01") oneItemDemo).feed_items,
        f.id < (applyOp (.cleanup "2024-01-01") oneItemDemo).next_id) :=
  feed_items_append_only (.cleanup "2024-01-01") oneItemDemo (by decide)

end BskyFeed
